import Mathlib

/-!
Verification of the StorePriceAlert (DealScout) repository.

The development shallowly embeds the API client (`code/api/client.py`) and
the fallback / filter / sort logic of the dashboard (`code/main.py`) and
proves or refutes the frozen specification claims about them.

Modelling conventions:
* Python `None` and JSON-ish payloads are modelled by `PyVal`;
  Python truthiness of such a value is `PyVal.truthy`.
* Python `float` money/percent/distance values are modelled by `ℚ`
  (every concrete float literal in the source is an exact decimal).
* `time.time()` timestamps are modelled by `ℤ` (seconds); only the ordered
  additive structure of timestamps is used by the code.
* Python strings are Lean `String`s; `sorted` on strings is insertion sort
  by the code-point lexicographic order `strLeb`, and `"_".join` is `joinU`.
* The network is modelled by an explicit `HttpOutcome` oracle: what the
  underlying HTTP exchange would produce for the one request a method makes.
-/

namespace StorePriceAlert

/-- A Python value as returned by the API layer and stored in the cache:
either the `None` sentinel or a JSON payload (a sequence of items; a JSON
object is a sequence of its bindings). -/
inductive PyVal (α : Type) where
  | none
  | items (xs : List α)
  deriving DecidableEq

/-- Python truthiness of a `PyVal`: `None` and the empty sequence are falsy. -/
def PyVal.truthy {α : Type} : PyVal α → Bool
  | .none => false
  | .items xs => !xs.isEmpty

/-- Python `settings.CACHE_TTL` (config.py:18): defaults to 3600 seconds. -/
def CACHE_TTL : ℤ := 3600

/-- The client's in-memory cache `self.cache : Dict[str, tuple[Any, float]]`
(client.py:35), modelled as an association list from key to
(value, timestamp). -/
abbrev Cache (α : Type) := List (String × PyVal α × ℤ)

/-- Dictionary lookup `self.cache[key]` (first binding wins, as in a dict). -/
def Cache.lookup {α : Type} : Cache α → String → Option (PyVal α × ℤ)
  | [], _ => Option.none
  | (k, v, t) :: rest, key => if k = key then some (v, t) else Cache.lookup rest key

/-- Dictionary deletion `del self.cache[key]`. -/
def Cache.erase {α : Type} : Cache α → String → Cache α
  | [], _ => []
  | (k, v, t) :: rest, key =>
      if k = key then Cache.erase rest key else (k, v, t) :: Cache.erase rest key

/-- Python method `_get_cached` (client.py:63-70): if the key is present and
`time.time() - timestamp < settings.CACHE_TTL` return the stored value,
otherwise delete any stale entry and return `None`.  The miss signal is the
same Python `None` as a stored sentinel, so the return type is `PyVal α`
(first component) together with the possibly-updated cache. -/
def getCached {α : Type} (c : Cache α) (now : ℤ) (key : String) : PyVal α × Cache α :=
  match c.lookup key with
  | some (v, ts) => if now - ts < CACHE_TTL then (v, c) else (PyVal.none, c.erase key)
  | Option.none => (PyVal.none, c)

/-- Python method `_set_cache` (client.py:72-74):
`self.cache[key] = (value, time.time())`. -/
def setCache {α : Type} (c : Cache α) (now : ℤ) (key : String) (v : PyVal α) : Cache α :=
  (key, v, now) :: c.erase key

/-- Code-point comparison of two lists of characters, the lexicographic
strict order Python uses on `str` when sorting. -/
def lexLtb : List Char → List Char → Bool
  | [], [] => false
  | [], _ :: _ => true
  | _ :: _, [] => false
  | a :: as, b :: bs => if a < b then true else if b < a then false else lexLtb as bs

/-- Non-strict string comparison used to model Python `sorted` on strings. -/
def strLeb (a b : String) : Bool := !(lexLtb b.data a.data)

/-- Python builtin `sorted` on a list of strings (ascending, stable). -/
def sortStrings (l : List String) : List String :=
  l.insertionSort (fun a b => strLeb a b = true)

/-- Python `"_".join(parts)`. -/
def joinU : List String → String
  | [] => ""
  | [s] => s
  | s :: rest => s ++ "_" ++ joinU rest

/-- Python `",".join(parts)`. -/
def joinComma : List String → String
  | [] => ""
  | [s] => s
  | s :: rest => s ++ "," ++ joinComma rest

/-- Decimal digit character. -/
def digitChar : ℕ → Char
  | 0 => '0' | 1 => '1' | 2 => '2' | 3 => '3' | 4 => '4'
  | 5 => '5' | 6 => '6' | 7 => '7' | 8 => '8' | 9 => '9'
  | _ => '*'

/-- Base-10 digits of `n`, least significant first, with explicit fuel so
that the recursion is structural. -/
def digitsRev : ℕ → ℕ → List ℕ
  | 0, _ => []
  | fuel + 1, n => if n = 0 then [] else (n % 10) :: digitsRev fuel (n / 10)

/-- Base-10 digits of `n`, least significant first. -/
def natDigits (n : ℕ) : List ℕ := digitsRev n n

/-- Decimal representation of a natural number, modelling the Python
f-string conversion of an `int` such as `radius`. -/
def natRepr (n : ℕ) : String :=
  if n = 0 then ("0") else ⟨((natDigits n).map digitChar).reverse⟩

/-- Fingerprint of `get_todays_deals` (client.py:95):
the f-string `deals_<zip_code>_<radius>_<underscore-joined sorted chains>`,
with the chain list defaulted by `store_chains or []`. -/
def cacheKeyDeals (zip_code : String) (radius : ℕ) (store_chains : Option (List String)) : String :=
  "deals_" ++ zip_code ++ "_" ++ natRepr radius ++ "_" ++
    joinU (sortStrings (store_chains.getD []))

/-- Fingerprint of `search_products` (client.py:112):
the f-string `search_<query>_<zip_code>_<radius>`. -/
def cacheKeySearch (query : String) (zip_code : String) (radius : ℕ) : String :=
  "search_" ++ query ++ "_" ++ zip_code ++ "_" ++ natRepr radius

/-- Fingerprint of `get_nearby_stores` (client.py:128):
the f-string `stores_<zip_code>_<radius>_<underscore-joined sorted chains>`. -/
def cacheKeyStores (zip_code : String) (radius : ℕ) (chains : Option (List String)) : String :=
  "stores_" ++ zip_code ++ "_" ++ natRepr radius ++ "_" ++
    joinU (sortStrings (chains.getD []))

/-- Fingerprint of `get_store_details` (client.py:143):
the f-string `store_<store_id>`. -/
def cacheKeyStoreDetails (store_id : String) : String := "store_" ++ store_id

/-- Outcome of the one HTTP exchange a call to `_request` performs
(after the session's automatic retries have run their course):
a 2xx response with a parseable JSON body, a network-level failure
(`requests.exceptions.RequestException`, including timeouts and the
`HTTPError` that `raise_for_status` raises once the configured retries
for 429/500/502/503/504 are exhausted), a 2xx response whose body is not
valid JSON (`response.json()` raises), or any other unexpected exception. -/
inductive HttpOutcome (α : Type) where
  | ok (body : PyVal α)
  | networkError
  | httpError (status : ℕ)
  | malformedBody
  | unexpectedError
  deriving DecidableEq

/-- Python method `_request` (client.py:76-91): perform the exchange; on a
2xx JSON response return the body, on `RequestException` (network failure or
non-2xx after retries) or on any other exception log and return `None`.
The method never raises: it is a total function into `PyVal α`. -/
def request {α : Type} (method : String) (endpoint : String) (o : HttpOutcome α) : PyVal α :=
  match method, endpoint, o with
  | _, _, .ok body => body
  | _, _, .networkError => PyVal.none
  | _, _, .httpError _ => PyVal.none
  | _, _, .malformedBody => PyVal.none
  | _, _, .unexpectedError => PyVal.none

/-- Result of one cached read call: the returned value, the cache state the
client is left with, and whether the Transport layer was invoked. -/
structure CachedCallResult (α : Type) where
  result : PyVal α
  cache : Cache α
  transportCalled : Bool
  deriving DecidableEq

/-- The cached-read pattern shared verbatim by the four read methods of
`DealScoutAPI` (client.py:93-150):
`if cached := self._get_cached(cache_key): return cached` followed by
`data = self._request(...); self._set_cache(cache_key, data); return data`.
The hit test is the walrus-`if`, i.e. Python truthiness of the value
returned by `_get_cached`. -/
def cachedRead {α : Type} (c : Cache α) (now : ℤ) (key : String) (data : PyVal α) :
    CachedCallResult α :=
  let g := getCached c now key
  if g.1.truthy then ⟨g.1, g.2, false⟩
  else ⟨data, setCache g.2 now key data, true⟩

/-- Python method `get_todays_deals` (client.py:93-108). -/
def get_todays_deals {α : Type} (c : Cache α) (now : ℤ) (zip_code : String) (radius : ℕ)
    (store_chains : Option (List String)) (upstream : HttpOutcome α) : CachedCallResult α :=
  cachedRead c now (cacheKeyDeals zip_code radius store_chains)
    (request ("GET") ("deals/today") upstream)

/-- Python method `search_products` (client.py:110-124). -/
def search_products {α : Type} (c : Cache α) (now : ℤ) (query : String) (zip_code : String)
    (radius : ℕ) (upstream : HttpOutcome α) : CachedCallResult α :=
  cachedRead c now (cacheKeySearch query zip_code radius)
    (request ("GET") ("products/search") upstream)

/-- Python method `get_nearby_stores` (client.py:126-141). -/
def get_nearby_stores {α : Type} (c : Cache α) (now : ℤ) (zip_code : String) (radius : ℕ)
    (chains : Option (List String)) (upstream : HttpOutcome α) : CachedCallResult α :=
  cachedRead c now (cacheKeyStores zip_code radius chains)
    (request ("GET") ("stores/nearby") upstream)

/-- Python method `get_store_details` (client.py:143-150). -/
def get_store_details {α : Type} (c : Cache α) (now : ℤ) (store_id : String)
    (upstream : HttpOutcome α) : CachedCallResult α :=
  cachedRead c now (cacheKeyStoreDetails store_id)
    (request ("GET") ("stores/" ++ store_id) upstream)

/-- Python method `get_user_alerts` (client.py:161-163): a plain, uncached
pass-through of `_request("GET", "alerts")`. -/
def get_user_alerts {α : Type} (upstream : HttpOutcome α) : PyVal α :=
  request ("GET") ("alerts") upstream

/-- Python method `delete_alert` (client.py:165-168): issues
`_request("DELETE", f"alerts/<alert_id>")`, discards the outcome and
returns `True`. -/
def delete_alert {α : Type} (alert_id : String) (upstream : HttpOutcome α) : Bool :=
  let _ : PyVal α := request ("DELETE") ("alerts/" ++ alert_id) upstream
  true

/-- A deal record as used by `main.py`: the dictionary fields the dashboard
reads.  Fields accessed through `deal.get(...)` with a default are `Option`s,
so that a missing key is representable. -/
structure Deal where
  id : String
  product_name : Option String
  brand : Option String
  price : Option ℚ
  original_price : Option ℚ
  discount_percent : Option ℚ
  store_name : Option String
  store_id : Option String
  distance : Option ℚ
  image_url : Option String
  category : Option String
  deriving DecidableEq

/-- Python function `get_mock_deals` (main.py:110-191): the fixed six-item
sample dataset. -/
def get_mock_deals : List Deal :=
  [ { id := "1"
    , product_name := some ("Organic Whole Milk - 1 Gallon")
    , brand := some ("Organic Valley")
    , price := some (499/100)
    , original_price := some (599/100)
    , discount_percent := some 17
    , store_name := some ("HEB")
    , store_id := some ("HEB-123")
    , distance := some (15/10)
    , image_url := some ("https://m.media-amazon.com/images/I/71vUGB0GJEL._AC_UF1000,1000_QL80_.jpg")
    , category := some ("Dairy") }
  , { id := "2"
    , product_name := some ("Large Brown Eggs - 12 Count")
    , brand := some ("Happy Egg Co")
    , price := some (349/100)
    , original_price := some (499/100)
    , discount_percent := some 30
    , store_name := some ("Walmart")
    , store_id := some ("WAL-456")
    , distance := some (21/10)
    , image_url := some ("https://m.media-amazon.com/images/I/81x5K5VvWEL._AC_UF1000,1000_QL80_.jpg")
    , category := some ("Dairy") }
  , { id := "3"
    , product_name := some ("Fresh Ground Beef - 1lb")
    , brand := some ("Certified Angus Beef")
    , price := some (599/100)
    , original_price := some (799/100)
    , discount_percent := some 25
    , store_name := some ("HEB")
    , store_id := some ("HEB-123")
    , distance := some (15/10)
    , image_url := some ("https://m.media-amazon.com/images/I/71vUGB0GJEL._AC_UF1000,1000_QL80_.jpg")
    , category := some ("Meat") }
  , { id := "4"
    , product_name := some ("Organic Bananas - 1lb")
    , brand := some ("Dole")
    , price := some (59/100)
    , original_price := some (79/100)
    , discount_percent := some 25
    , store_name := some ("Whole Foods")
    , store_id := some ("WF-789")
    , distance := some (32/10)
    , image_url := some ("https://m.media-amazon.com/images/I/61fZ+YAYGaL._AC_UF1000,1000_QL80_.jpg")
    , category := some ("Produce") }
  , { id := "5"
    , product_name := some ("Cage-Free Chicken Breast - 2.5lb")
    , brand := some ("Perdue")
    , price := some (899/100)
    , original_price := some (1299/100)
    , discount_percent := some 31
    , store_name := some ("HEB")
    , store_id := some ("HEB-123")
    , distance := some (15/10)
    , image_url := some ("https://m.media-amazon.com/images/I/61fZ+YAYGaL._AC_UF1000,1000_QL80_.jpg")
    , category := some ("Meat") }
  , { id := "6"
    , product_name := some ("Organic Strawberries - 16oz")
    , brand := some ("Driscoll\x27s")
    , price := some (399/100)
    , original_price := some (599/100)
    , discount_percent := some 33
    , store_name := some ("Trader Joe\x27s")
    , store_id := some ("TJ-101")
    , distance := some (45/10)
    , image_url := some ("https://m.media-amazon.com/images/I/61fZ+YAYGaL._AC_UF1000,1000_QL80_.jpg")
    , category := some ("Produce") } ]

/-- Python function `load_deals` (main.py:194-219), as a function of the
value the client call returned: `if not deals:` (sentinel or empty) the
mock dataset and its length are returned, otherwise the deals and their
length. -/
def load_deals (deals : PyVal Deal) : List Deal × ℕ :=
  if deals.truthy then
    match deals with
    | .items xs => (xs, xs.length)
    | .none => (get_mock_deals, get_mock_deals.length)
  else (get_mock_deals, get_mock_deals.length)

/-- The Average Savings metric (main.py:364):
`sum(deal.get('discount_percent', 0) for deal in deals) / len(deals) if deals else 0`. -/
def avg_savings (deals : List Deal) : ℚ :=
  if deals.isEmpty then 0
  else (deals.map (fun d => d.discount_percent.getD 0)).sum / deals.length

/-- Python `str.lower`, modelled character-wise. -/
def pyLower (s : String) : String := ⟨s.data.map Char.toLower⟩

/-- Whether the first list of characters is a prefix of the second. -/
def isPrefixChars : List Char → List Char → Bool
  | [], _ => true
  | _ :: _, [] => false
  | a :: as, b :: bs => a == b && isPrefixChars as bs

/-- Python substring containment `needle in hay` on lists of characters. -/
def isSubstr : List Char → List Char → Bool
  | n, [] => n.isEmpty
  | n, h :: hs => isPrefixChars n (h :: hs) || isSubstr n hs

/-- Body of the Python filter loop over one deal (main.py:411-428): kept iff
(the lowered query is falsy — empty —, or it occurs in one of the truthy
— non-empty — lowered `product_name`/`brand`/`category` fields) and (the
category selector is `All` or equals the deal's category).  `search_query`
is lowered at the input widget (main.py:384). -/
def keepDeal (search_query : String) (category_filter : String) (d : Deal) : Bool :=
  let q := pyLower search_query
  let fields := [ pyLower (d.product_name.getD (""))
                , pyLower (d.brand.getD (""))
                , pyLower (d.category.getD ("")) ]
  (q.data.isEmpty || (fields.filter (fun f => !f.data.isEmpty)).any
      (fun f => isSubstr q.data f.data))
  && (category_filter = "All"
      || (match d.category with
          | some c => c = category_filter
          | Option.none => false))

/-- Python filter loop over deals (main.py:411-428). -/
def filtered_deals (search_query : String) (category_filter : String)
    (deals : List Deal) : List Deal :=
  deals.filter (keepDeal search_query category_filter)

/-- The four sort modes of the deals tab (main.py:393-397, 441-451). -/
inductive SortOption where
  | bestValue
  | priceLowToHigh
  | discountPercent
  | distance
  deriving DecidableEq

/-- Sort key for Price (Low to High): `x.get('price', float('inf'))`. -/
def priceKey (d : Deal) : WithTop ℚ :=
  match d.price with
  | some p => (p : WithTop ℚ)
  | Option.none => ⊤

/-- Sort key for Discount %: `x.get('discount_percent', 0)`. -/
def discountKey (d : Deal) : ℚ := d.discount_percent.getD 0

/-- Sort key for Distance: `x.get('distance', float('inf'))`. -/
def distanceKey (d : Deal) : WithTop ℚ :=
  match d.distance with
  | some x => (x : WithTop ℚ)
  | Option.none => ⊤

/-- Sort key for Best Value:
`(x.get('discount_percent', 0), -x.get('price', 0))`. -/
def bestValueKey (d : Deal) : ℚ × ℚ := (discountKey d, -(d.price.getD 0))

/-- Python tuple comparison on the Best Value keys: lexicographic. -/
def pairLE (p q : ℚ × ℚ) : Prop := p.1 < q.1 ∨ (p.1 = q.1 ∧ p.2 ≤ q.2)

instance : DecidableRel pairLE := fun p q => by
  unfold pairLE; infer_instance

/-- The sort step (main.py:441-451).  Python `list.sort` is a stable sort;
`reverse=True` keeps the original relative order of equal keys, so every
branch is the stable insertion sort by the corresponding non-strict key
relation (for the descending branches, the reversed relation). -/
def sortDeals : SortOption → List Deal → List Deal
  | .priceLowToHigh, l => l.insertionSort (fun a b => priceKey a ≤ priceKey b)
  | .discountPercent, l => l.insertionSort (fun a b => discountKey b ≤ discountKey a)
  | .distance, l => l.insertionSort (fun a b => distanceKey a ≤ distanceKey b)
  | .bestValue, l => l.insertionSort (fun a b => pairLE (bestValueKey b) (bestValueKey a))

/-! ### Order facts about the string comparison used by `sorted` -/

theorem stringExt {a b : String} (h : a.data = b.data) : a = b := by
  cases a; cases b; cases h; rfl

theorem lexLtb_asymm : ∀ a b : List Char, lexLtb a b = true → lexLtb b a = false := by
  intro a
  induction a with
  | nil =>
    intro b h
    cases b with
    | nil => simp [lexLtb] at h
    | cons y ys => simp [lexLtb]
  | cons x xs ih =>
    intro b h
    cases b with
    | nil => simp [lexLtb] at h
    | cons y ys =>
      simp only [lexLtb] at h ⊢
      by_cases hxy : x < y
      · simp [hxy, asymm hxy] at h ⊢
      · by_cases hyx : y < x
        · simp [hxy, hyx] at h
        · simp [hxy, hyx] at h ⊢
          exact ih ys h

theorem lexLtb_eq_of_not : ∀ a b : List Char,
    lexLtb a b = false → lexLtb b a = false → a = b := by
  intro a
  induction a with
  | nil =>
    intro b h _
    cases b with
    | nil => rfl
    | cons y ys => simp [lexLtb] at h
  | cons x xs ih =>
    intro b h h2
    cases b with
    | nil => simp [lexLtb] at h2
    | cons y ys =>
      simp only [lexLtb] at h h2
      by_cases hxy : x < y
      · simp [hxy] at h
      · by_cases hyx : y < x
        · simp [hxy, hyx] at h2
        · simp [hxy, hyx] at h h2
          have hc : x = y := le_antisymm (not_lt.mp hyx) (not_lt.mp hxy)
          rw [hc, ih ys h h2]

theorem lexLtb_trans : ∀ a b c : List Char,
    lexLtb a b = true → lexLtb b c = true → lexLtb a c = true := by
  intro a
  induction a with
  | nil =>
    intro b c hab hbc
    cases b with
    | nil => simp [lexLtb] at hab
    | cons y ys =>
      cases c with
      | nil => simp [lexLtb] at hbc
      | cons z zs => simp [lexLtb]
  | cons x xs ih =>
    intro b c hab hbc
    cases b with
    | nil => simp [lexLtb] at hab
    | cons y ys =>
      cases c with
      | nil => simp [lexLtb] at hbc
      | cons z zs =>
        simp only [lexLtb] at hab hbc ⊢
        by_cases hxy : x < y
        · by_cases hyz : y < z
          · simp [lt_trans hxy hyz]
          · by_cases hzy : z < y
            · simp [hyz, hzy] at hbc
            · have : y = z := le_antisymm (not_lt.mp hzy) (not_lt.mp hyz)
              simp [this ▸ hxy]
        · by_cases hyx : y < x
          · simp [hxy, hyx] at hab
          · have hx : x = y := le_antisymm (not_lt.mp hyx) (not_lt.mp hxy)
            subst hx
            simp only [hxy, if_neg, if_neg (lt_irrefl x)] at hab
            by_cases hyz : x < z
            · simp [hyz]
            · by_cases hzy : z < x
              · simp [hyz, hzy] at hbc
              · simp [hyz, hzy] at hab hbc ⊢
                exact ih ys zs hab hbc

instance strLeTotal : IsTotal String (fun a b => strLeb a b = true) := by
  constructor
  intro a b
  by_cases h : lexLtb b.data a.data = true
  · right
    simp [strLeb, lexLtb_asymm _ _ h]
  · left
    simp only [strLeb, Bool.not_eq_true'] at h ⊢
    simp [h]

instance strLeTrans : IsTrans String (fun a b => strLeb a b = true) := by
  constructor
  intro a b c hab hbc
  simp only [strLeb, Bool.not_eq_true'] at hab hbc ⊢
  by_cases hca : lexLtb c.data a.data = true
  · by_cases hba : lexLtb b.data a.data = true
    · simp [hba] at hab
    · by_cases hbc2 : lexLtb b.data c.data = true
      · have := lexLtb_trans _ _ _ hbc2 hca
        simp [this] at hab
      · have : b.data = c.data :=
          lexLtb_eq_of_not _ _ (by simpa using hbc2) (by simpa using hbc)
        rw [← this] at hca
        simp [hca] at hab
  · simpa using hca

instance strLeAntisymm : IsAntisymm String (fun a b => strLeb a b = true) := by
  constructor
  intro a b hab hba
  simp only [strLeb, Bool.not_eq_true'] at hab hba
  exact stringExt (lexLtb_eq_of_not _ _ hba hab)

/-- Sorting by `strLeb` sends permuted inputs to the same output. -/
theorem sortStrings_perm {l₁ l₂ : List String} (h : l₁.Perm l₂) :
    sortStrings l₁ = sortStrings l₂ :=
  List.eq_of_perm_of_sorted
    ((List.perm_insertionSort _ l₁).trans (h.trans (List.perm_insertionSort _ l₂).symm))
    (List.sorted_insertionSort _ l₁) (List.sorted_insertionSort _ l₂)

/-! ### Claims -/

/-- C7: for every zip code and radius, and any two store-chain lists that
are permutations of each other, `get_todays_deals` and `get_nearby_stores`
compute the identical cache fingerprint. -/
theorem claim_C7_fingerprint_perm_invariant
    (zip_code : String) (radius : ℕ) (c₁ c₂ : List String) (h : c₁.Perm c₂) :
    cacheKeyDeals zip_code radius (some c₁) = cacheKeyDeals zip_code radius (some c₂) ∧
    cacheKeyStores zip_code radius (some c₁) = cacheKeyStores zip_code radius (some c₂) := by
  unfold cacheKeyDeals cacheKeyStores
  rw [Option.getD, Option.getD, sortStrings_perm h]
  exact ⟨rfl, rfl⟩

/-- Witness for C7 at the spec's example chains. -/
theorem claim_C7_witness :
    cacheKeyDeals ("78704") 5 (some ["HEB", "Walmart"]) =
      cacheKeyDeals ("78704") 5 (some ["Walmart", "HEB"]) ∧
    cacheKeyStores ("78704") 5 (some ["HEB", "Walmart"]) =
      cacheKeyStores ("78704") 5 (some ["Walmart", "HEB"]) :=
  claim_C7_fingerprint_perm_invariant ("78704") 5 _ _ (by decide)

/-- Helper: erasing a key removes every binding for it. -/
theorem Cache.lookup_erase {α : Type} (c : Cache α) (k : String) :
    (c.erase k).lookup k = Option.none := by
  induction c with
  | nil => rfl
  | cons hd tl ih =>
    obtain ⟨k', v, t⟩ := hd
    by_cases h : k' = k
    · simpa [Cache.erase, h] using ih
    · simpa [Cache.erase, Cache.lookup, h] using ih

/-- C6: `set(k, v)` immediately followed by `get(k)` within the TTL window
returns `v`; once the TTL has elapsed, `get(k)` evicts the entry and
signals a miss (the `None` miss signal, with the key no longer present). -/
theorem claim_C6_cache_ttl {α : Type} (c : Cache α) (k : String) (v : PyVal α)
    (t now : ℤ) :
    (now - t < CACHE_TTL → getCached (setCache c t k v) now k = (v, setCache c t k v)) ∧
    (CACHE_TTL ≤ now - t →
      getCached (setCache c t k v) now k = (PyVal.none, (setCache c t k v).erase k) ∧
      ((setCache c t k v).erase k).lookup k = Option.none) := by
  constructor
  · intro h
    simp [getCached, setCache, Cache.lookup, h]
  · intro h
    have h' : ¬ (now - t < CACHE_TTL) := not_lt.mpr h
    refine ⟨by simp [getCached, setCache, Cache.lookup, h'], Cache.lookup_erase _ _⟩

/-- Witness for C6: a fresh entry is returned one second after `set`;
an entry set 3600 seconds ago is evicted and misses. -/
theorem claim_C6_witness :
    getCached (setCache ([] : Cache ℕ) 0 ("k") (PyVal.items [1])) 1 ("k") =
      (PyVal.items [1], setCache ([] : Cache ℕ) 0 ("k") (PyVal.items [1])) ∧
    getCached (setCache ([] : Cache ℕ) 0 ("k") (PyVal.items [1])) 3600 ("k") =
      (PyVal.none, (setCache ([] : Cache ℕ) 0 ("k") (PyVal.items [1])).erase ("k")) :=
  ⟨(claim_C6_cache_ttl [] ("k") (PyVal.items [1]) 0 1).1 (by decide),
   ((claim_C6_cache_ttl [] ("k") (PyVal.items [1]) 0 3600).2 (by decide)).1⟩

/-- C3: `_request` never raises: it is a total function, returning the body
on a 2xx JSON response and the `None` sentinel on a network-level failure,
a non-2xx status after retries are exhausted, a malformed response body, or
any other unexpected exception — for every method and endpoint. -/
theorem claim_C3_request_never_raises {α : Type} :
    ∀ (method endpoint : String) (status : ℕ),
      (request method endpoint HttpOutcome.networkError : PyVal α) = PyVal.none ∧
      (request method endpoint (HttpOutcome.httpError status) : PyVal α) = PyVal.none ∧
      (request method endpoint HttpOutcome.malformedBody : PyVal α) = PyVal.none ∧
      (request method endpoint HttpOutcome.unexpectedError : PyVal α) = PyVal.none ∧
      ∀ body : PyVal α, request method endpoint (.ok body) = body := by
  intro method endpoint status
  exact ⟨rfl, rfl, rfl, rfl, fun _ => rfl⟩

/-- C9: `delete_alert` returns `True` for every alert id once the request
has been issued, whatever the outcome of the underlying DELETE request. -/
theorem claim_C9_delete_alert_always_true {α : Type} :
    ∀ (alert_id : String) (upstream : HttpOutcome α),
      delete_alert alert_id upstream = true := by
  intro _ _
  rfl

/-- C10: `get_user_alerts` is a plain pass-through of the Transport result;
in particular an empty alerts list from a successful call is returned
unchanged and is never replaced by the sample dataset. -/
theorem claim_C10_alerts_empty_passthrough :
    (∀ (α : Type) (upstream : HttpOutcome α),
      get_user_alerts upstream = request ("GET") ("alerts") upstream) ∧
    (∀ (α : Type), get_user_alerts (.ok (.items ([] : List α))) = .items []) ∧
    get_user_alerts (.ok (.items ([] : List Deal))) ≠ .items get_mock_deals := by
  refine ⟨fun _ _ => rfl, fun _ => rfl, ?_⟩
  intro h
  simp [get_user_alerts, request, get_mock_deals] at h

/-- Helper: a cached read on a fresh, truthy entry returns it without
touching the Transport layer. -/
theorem cachedRead_hit {α : Type} {c : Cache α} {now ts : ℤ} {key : String}
    {v : PyVal α} (data : PyVal α) (hl : c.lookup key = some (v, ts))
    (hfresh : now - ts < CACHE_TTL) (ht : v.truthy = true) :
    cachedRead c now key data = ⟨v, c, false⟩ := by
  simp [cachedRead, getCached, hl, hfresh, ht]

/-- Helper: when the value `_get_cached` hands back is falsy (a miss, an
expired entry, a stored sentinel or a stored empty sequence), a cached read
calls the Transport layer, caches the raw result and returns it. -/
theorem cachedRead_refetch {α : Type} {c : Cache α} {now : ℤ} {key : String}
    (data : PyVal α) (h : (getCached c now key).1.truthy = false) :
    cachedRead c now key data =
      ⟨data, setCache (getCached c now key).2 now key data, true⟩ := by
  rw [cachedRead]
  simp [h]

/-- Helper: a `set` binding is immediately visible to `lookup`. -/
theorem setCache_lookup {α : Type} (c : Cache α) (now : ℤ) (key : String) (v : PyVal α) :
    (setCache c now key v).lookup key = some (v, now) := by
  simp [setCache, Cache.lookup]

/-- C1 fails on the code: the hit test is Python truthiness of the value
`_get_cached` returns, so a fresh cache entry whose stored value is the
`None` sentinel is *not* returned immediately — the Transport layer is
called again.  Here the deals fingerprint for ZIP 78704, radius 5 holds a
fresh sentinel (age 1 < TTL), yet `get_todays_deals` reports a Transport
call and returns the new upstream payload instead of the stored value. -/
theorem claim_C1_counterexample :
    ([(cacheKeyDeals ("78704") 5 Option.none, PyVal.none, 0)] : Cache ℕ).lookup
        (cacheKeyDeals ("78704") 5 Option.none) = some (PyVal.none, 0) ∧
    (1 : ℤ) - 0 < CACHE_TTL ∧
    (get_todays_deals [(cacheKeyDeals ("78704") 5 Option.none, PyVal.none, 0)] 1
        ("78704") 5 Option.none (.ok (.items [1]))).transportCalled = true ∧
    (get_todays_deals [(cacheKeyDeals ("78704") 5 Option.none, PyVal.none, 0)] 1
        ("78704") 5 Option.none (.ok (.items [1]))).result = PyVal.items [1] := by
  decide

/-- C1 (amended): each cached read computes its fingerprint and consults the
cache; on a hit within the TTL whose stored value is truthy it returns the
stored value with no Transport call and the cache unchanged; whenever
`_get_cached` hands back a falsy value — a genuine miss, an expired entry,
or a stored sentinel/empty sequence, which are indistinguishable from a
miss because the miss signal is the same `None` — it calls Transport,
stores the raw result (even the sentinel) under the fingerprint, and
returns that result. -/
theorem claim_C1_amended_cached_reads {α : Type} :
    (∀ (c : Cache α) (now ts : ℤ) (zip_code : String) (radius : ℕ)
        (store_chains : Option (List String)) (upstream : HttpOutcome α) (v : PyVal α),
      c.lookup (cacheKeyDeals zip_code radius store_chains) = some (v, ts) →
      now - ts < CACHE_TTL → v.truthy = true →
      get_todays_deals c now zip_code radius store_chains upstream = ⟨v, c, false⟩) ∧
    (∀ (c : Cache α) (now : ℤ) (zip_code : String) (radius : ℕ)
        (store_chains : Option (List String)) (upstream : HttpOutcome α),
      (getCached c now (cacheKeyDeals zip_code radius store_chains)).1.truthy = false →
      get_todays_deals c now zip_code radius store_chains upstream =
        ⟨request ("GET") ("deals/today") upstream,
          setCache (getCached c now (cacheKeyDeals zip_code radius store_chains)).2 now
            (cacheKeyDeals zip_code radius store_chains)
            (request ("GET") ("deals/today") upstream), true⟩ ∧
      (get_todays_deals c now zip_code radius store_chains upstream).cache.lookup
          (cacheKeyDeals zip_code radius store_chains) =
        some (request ("GET") ("deals/today") upstream, now)) ∧
    (∀ (c : Cache α) (now ts : ℤ) (query zip_code : String) (radius : ℕ)
        (upstream : HttpOutcome α) (v : PyVal α),
      c.lookup (cacheKeySearch query zip_code radius) = some (v, ts) →
      now - ts < CACHE_TTL → v.truthy = true →
      search_products c now query zip_code radius upstream = ⟨v, c, false⟩) ∧
    (∀ (c : Cache α) (now : ℤ) (query zip_code : String) (radius : ℕ)
        (upstream : HttpOutcome α),
      (getCached c now (cacheKeySearch query zip_code radius)).1.truthy = false →
      search_products c now query zip_code radius upstream =
        ⟨request ("GET") ("products/search") upstream,
          setCache (getCached c now (cacheKeySearch query zip_code radius)).2 now
            (cacheKeySearch query zip_code radius)
            (request ("GET") ("products/search") upstream), true⟩ ∧
      (search_products c now query zip_code radius upstream).cache.lookup
          (cacheKeySearch query zip_code radius) =
        some (request ("GET") ("products/search") upstream, now)) ∧
    (∀ (c : Cache α) (now ts : ℤ) (zip_code : String) (radius : ℕ)
        (chains : Option (List String)) (upstream : HttpOutcome α) (v : PyVal α),
      c.lookup (cacheKeyStores zip_code radius chains) = some (v, ts) →
      now - ts < CACHE_TTL → v.truthy = true →
      get_nearby_stores c now zip_code radius chains upstream = ⟨v, c, false⟩) ∧
    (∀ (c : Cache α) (now : ℤ) (zip_code : String) (radius : ℕ)
        (chains : Option (List String)) (upstream : HttpOutcome α),
      (getCached c now (cacheKeyStores zip_code radius chains)).1.truthy = false →
      get_nearby_stores c now zip_code radius chains upstream =
        ⟨request ("GET") ("stores/nearby") upstream,
          setCache (getCached c now (cacheKeyStores zip_code radius chains)).2 now
            (cacheKeyStores zip_code radius chains)
            (request ("GET") ("stores/nearby") upstream), true⟩ ∧
      (get_nearby_stores c now zip_code radius chains upstream).cache.lookup
          (cacheKeyStores zip_code radius chains) =
        some (request ("GET") ("stores/nearby") upstream, now)) ∧
    (∀ (c : Cache α) (now ts : ℤ) (store_id : String)
        (upstream : HttpOutcome α) (v : PyVal α),
      c.lookup (cacheKeyStoreDetails store_id) = some (v, ts) →
      now - ts < CACHE_TTL → v.truthy = true →
      get_store_details c now store_id upstream = ⟨v, c, false⟩) ∧
    (∀ (c : Cache α) (now : ℤ) (store_id : String) (upstream : HttpOutcome α),
      (getCached c now (cacheKeyStoreDetails store_id)).1.truthy = false →
      get_store_details c now store_id upstream =
        ⟨request ("GET") ("stores/" ++ store_id) upstream,
          setCache (getCached c now (cacheKeyStoreDetails store_id)).2 now
            (cacheKeyStoreDetails store_id)
            (request ("GET") ("stores/" ++ store_id) upstream), true⟩ ∧
      (get_store_details c now store_id upstream).cache.lookup
          (cacheKeyStoreDetails store_id) =
        some (request ("GET") ("stores/" ++ store_id) upstream, now)) := by
  refine ⟨?_, ?_, ?_, ?_, ?_, ?_, ?_, ?_⟩
  · intro c now ts z r ch u v hl hf ht
    exact cachedRead_hit _ hl hf ht
  · intro c now z r ch u h
    have e := cachedRead_refetch (request ("GET") ("deals/today") u) h
    refine ⟨e, ?_⟩
    show (cachedRead c now (cacheKeyDeals z r ch)
      (request ("GET") ("deals/today") u)).cache.lookup _ = _
    rw [e]
    exact setCache_lookup _ _ _ _
  · intro c now ts q z r u v hl hf ht
    exact cachedRead_hit _ hl hf ht
  · intro c now q z r u h
    have e := cachedRead_refetch (request ("GET") ("products/search") u) h
    refine ⟨e, ?_⟩
    show (cachedRead c now (cacheKeySearch q z r)
      (request ("GET") ("products/search") u)).cache.lookup _ = _
    rw [e]
    exact setCache_lookup _ _ _ _
  · intro c now ts z r ch u v hl hf ht
    exact cachedRead_hit _ hl hf ht
  · intro c now z r ch u h
    have e := cachedRead_refetch (request ("GET") ("stores/nearby") u) h
    refine ⟨e, ?_⟩
    show (cachedRead c now (cacheKeyStores z r ch)
      (request ("GET") ("stores/nearby") u)).cache.lookup _ = _
    rw [e]
    exact setCache_lookup _ _ _ _
  · intro c now ts sid u v hl hf ht
    exact cachedRead_hit _ hl hf ht
  · intro c now sid u h
    have e := cachedRead_refetch (request ("GET") ("stores/" ++ sid) u) h
    refine ⟨e, ?_⟩
    show (cachedRead c now (cacheKeyStoreDetails sid)
      (request ("GET") ("stores/" ++ sid) u)).cache.lookup _ = _
    rw [e]
    exact setCache_lookup _ _ _ _

/-- Witness for the amended C1: a fresh truthy deals entry is served from
the cache with no Transport call, and a read against an empty cache
refetches and stores the upstream payload. -/
theorem claim_C1_witness :
    get_todays_deals [(cacheKeyDeals ("78704") 5 Option.none, PyVal.items [7], 0)] 1
        ("78704") 5 Option.none (.ok (.items [9])) =
      ⟨PyVal.items [7], [(cacheKeyDeals ("78704") 5 Option.none, PyVal.items [7], 0)], false⟩ ∧
    (get_todays_deals ([] : Cache ℕ) 1 ("78704") 5 Option.none
        (.ok (.items [9]))).transportCalled = true :=
  ⟨(claim_C1_amended_cached_reads.1) _ 1 0 ("78704") 5 Option.none _ _ (by decide)
      (by decide) (by decide),
   by rw [(claim_C1_amended_cached_reads.2.1 ([] : Cache ℕ) 1 ("78704") 5 Option.none
      (.ok (.items [9])) (by decide)).1]⟩

/-- C2: whenever the upstream deals call yields the sentinel or an empty
sequence, `load_deals` returns the fixed six-item sample dataset together
with the count 6, and the Average Savings metric over that dataset equals
(17+30+25+25+31+33)/6. -/
theorem claim_C2_fallback_dataset (deals : PyVal Deal)
    (h : deals = PyVal.none ∨ deals = PyVal.items []) :
    load_deals deals = (get_mock_deals, 6) ∧
    get_mock_deals ≠ [] ∧
    avg_savings get_mock_deals = (17 + 30 + 25 + 25 + 31 + 33) / 6 := by
  have hload : load_deals deals = (get_mock_deals, 6) := by
    rcases h with h | h <;> subst h <;> rfl
  refine ⟨hload, by simp [get_mock_deals], ?_⟩
  show avg_savings get_mock_deals = (17 + 30 + 25 + 25 + 31 + 33) / 6
  simp [avg_savings, get_mock_deals]
  norm_num

/-- Witness for C2 at the sentinel input. -/
theorem claim_C2_witness :
    load_deals PyVal.none = (get_mock_deals, 6) ∧
    get_mock_deals ≠ [] ∧
    avg_savings get_mock_deals = (17 + 30 + 25 + 25 + 31 + 33) / 6 :=
  claim_C2_fallback_dataset PyVal.none (Or.inl rfl)

/-! ### C4: the four sort orderings -/

instance priceRelTotal : IsTotal Deal (fun a b => priceKey a ≤ priceKey b) :=
  ⟨fun _ _ => le_total _ _⟩

instance priceRelTrans : IsTrans Deal (fun a b => priceKey a ≤ priceKey b) :=
  ⟨fun _ _ _ => le_trans⟩

instance distRelTotal : IsTotal Deal (fun a b => distanceKey a ≤ distanceKey b) :=
  ⟨fun _ _ => le_total _ _⟩

instance distRelTrans : IsTrans Deal (fun a b => distanceKey a ≤ distanceKey b) :=
  ⟨fun _ _ _ => le_trans⟩

instance discRelTotal : IsTotal Deal (fun a b => discountKey b ≤ discountKey a) :=
  ⟨fun _ _ => le_total _ _⟩

instance discRelTrans : IsTrans Deal (fun a b => discountKey b ≤ discountKey a) :=
  ⟨fun _ _ _ h1 h2 => le_trans h2 h1⟩

theorem pairLE_total (p q : ℚ × ℚ) : pairLE p q ∨ pairLE q p := by
  rcases lt_trichotomy p.1 q.1 with h | h | h
  · exact Or.inl (Or.inl h)
  · rcases le_total p.2 q.2 with h2 | h2
    · exact Or.inl (Or.inr ⟨h, h2⟩)
    · exact Or.inr (Or.inr ⟨h.symm, h2⟩)
  · exact Or.inr (Or.inl h)

theorem pairLE_trans {p q r : ℚ × ℚ} (h1 : pairLE p q) (h2 : pairLE q r) :
    pairLE p r := by
  rcases h1 with h1 | ⟨e1, l1⟩
  · rcases h2 with h2 | ⟨e2, l2⟩
    · exact Or.inl (lt_trans h1 h2)
    · exact Or.inl (e2 ▸ h1)
  · rcases h2 with h2 | ⟨e2, l2⟩
    · exact Or.inl (e1 ▸ h2)
    · exact Or.inr ⟨e1.trans e2, le_trans l1 l2⟩

instance bestRelTotal : IsTotal Deal (fun a b => pairLE (bestValueKey b) (bestValueKey a)) :=
  ⟨fun a b => (pairLE_total (bestValueKey b) (bestValueKey a)).imp id id⟩

instance bestRelTrans : IsTrans Deal (fun a b => pairLE (bestValueKey b) (bestValueKey a)) :=
  ⟨fun _ _ _ h1 h2 => pairLE_trans h2 h1⟩

/-- A minimal deal carrying only a price, for the concrete sort example. -/
def pDeal (i : String) (p : ℚ) : Deal :=
  ⟨i, Option.none, Option.none, some p, Option.none, Option.none, Option.none,
   Option.none, Option.none, Option.none, Option.none⟩

/-- A minimal deal carrying only a discount percent. -/
def dDeal (i : String) (disc : ℚ) : Deal :=
  ⟨i, Option.none, Option.none, Option.none, Option.none, some disc, Option.none,
   Option.none, Option.none, Option.none, Option.none⟩

/-- C4: the sort step applies exactly one of four deterministic orderings —
price ascending with missing price as +infinity, discount percent
descending with missing as 0, distance ascending with missing as
+infinity, and the default Best Value descending lexicographic order on
(discount percent, −price) pairs; each branch returns a permutation of its
input sorted by the corresponding key relation, and the spec's two
concrete examples hold. -/
theorem claim_C4_sort_orderings :
    (∀ l : List Deal, (sortDeals .priceLowToHigh l).Perm l ∧
      (sortDeals .priceLowToHigh l).Sorted (fun a b => priceKey a ≤ priceKey b)) ∧
    (∀ l : List Deal, (sortDeals .discountPercent l).Perm l ∧
      (sortDeals .discountPercent l).Sorted (fun a b => discountKey b ≤ discountKey a)) ∧
    (∀ l : List Deal, (sortDeals .distance l).Perm l ∧
      (sortDeals .distance l).Sorted (fun a b => distanceKey a ≤ distanceKey b)) ∧
    (∀ l : List Deal, (sortDeals .bestValue l).Perm l ∧
      (sortDeals .bestValue l).Sorted
        (fun a b => pairLE (bestValueKey b) (bestValueKey a))) ∧
    (sortDeals .priceLowToHigh [pDeal ("a") (599/100), pDeal ("b") (349/100),
        pDeal ("c") (59/100)]).map (fun d => d.price) =
      [some (59/100), some (349/100), some (599/100)] ∧
    (sortDeals .discountPercent [dDeal ("a") 17, dDeal ("b") 30, dDeal ("c") 25]).map
        (fun d => d.discount_percent) = [some 30, some 25, some 17] := by
  refine ⟨fun l => ⟨List.perm_insertionSort _ l, List.sorted_insertionSort _ l⟩,
    fun l => ⟨List.perm_insertionSort _ l, List.sorted_insertionSort _ l⟩,
    fun l => ⟨List.perm_insertionSort _ l, List.sorted_insertionSort _ l⟩,
    fun l => ⟨List.perm_insertionSort _ l, List.sorted_insertionSort _ l⟩, ?_, ?_⟩
  · norm_num [sortDeals, List.insertionSort, List.orderedInsert, priceKey, pDeal,
      WithTop.coe_le_coe]
  · norm_num [sortDeals, List.insertionSort, List.orderedInsert, discountKey, dDeal]

/-! ### C5: the filter step -/

/-- Modelled from the spec: keep exactly the entries where (the free-text
query is empty OR the query is a case-insensitive substring of at least one
of {name, brand, category}) AND (the category selector is `All` OR equals
the entry's category).  This definition follows the spec's words; C5
compares the code's filter against it. -/
def keepSpec (search_query : String) (category_filter : String) (d : Deal) : Prop :=
  (search_query = "" ∨
    isSubstr (pyLower search_query).data (pyLower (d.product_name.getD (""))).data = true ∨
    isSubstr (pyLower search_query).data (pyLower (d.brand.getD (""))).data = true ∨
    isSubstr (pyLower search_query).data (pyLower (d.category.getD (""))).data = true) ∧
  (category_filter = "All" ∨ d.category = some category_filter)

instance keepSpecDecidable (q cf : String) (d : Deal) : Decidable (keepSpec q cf d) := by
  unfold keepSpec
  infer_instance

theorem pyLower_data (s : String) : (pyLower s).data = s.data.map Char.toLower := rfl

theorem pyLower_isEmpty_false {s : String} (h : s ≠ "") :
    (pyLower s).data.isEmpty = false := by
  rw [pyLower_data]
  cases hs : s.data with
  | nil => exact absurd (stringExt hs) h
  | cons a as => simp

theorem isSubstr_nil_right (n : List Char) : isSubstr n [] = n.isEmpty := rfl

/-- The `if field` truthiness guard in the search filter is vacuous for a
non-empty query: a non-empty needle is never a substring of the empty
field. -/
theorem any_filter_nonempty (n : List Char) (hn : n.isEmpty = false) (fs : List String) :
    ((fs.filter (fun f => !f.data.isEmpty)).any (fun f => isSubstr n f.data)) =
      fs.any (fun f => isSubstr n f.data) := by
  induction fs with
  | nil => rfl
  | cons f fs ih =>
    by_cases hf : f.data.isEmpty
    · have hd : f.data = [] := by simpa using hf
      simp only [List.filter, List.any_cons, hf, Bool.not_true, hd,
        isSubstr_nil_right, hn, Bool.false_or]
      exact ih
    · have hf2 : f.data.isEmpty = false := by simpa using hf
      simp only [List.filter, List.any_cons, hf2, Bool.not_false]
      rw [ih]

theorem keepDeal_eq_spec (q cf : String) (d : Deal) :
    keepDeal q cf d = decide (keepSpec q cf d) := by
  obtain ⟨i, pn, br, pr, op, dp, sn, si, di, iu, cat⟩ := d
  unfold keepDeal keepSpec
  by_cases hq : q = ""
  · subst hq
    by_cases hcf : cf = "All" <;> cases cat <;>
      simp [hcf, show (pyLower ("")).data.isEmpty = true from rfl]
  · have hq2 : (pyLower q).data.isEmpty = false := pyLower_isEmpty_false hq
    simp only [hq2, Bool.false_or, any_filter_nonempty _ hq2]
    by_cases hcf : cf = "All" <;> cases cat <;>
      (rw [Bool.eq_iff_iff]; simp [hcf, hq, List.any_cons, List.any_nil, or_assoc])

/-- C5: for every dataset, query and category selection, the filter step
keeps exactly the entries prescribed by the spec predicate: (query empty OR
case-insensitive substring of name, brand or category) AND (selector `All`
OR equal to the entry's category). -/
theorem claim_C5_filter_exactly :
    ∀ (search_query category_filter : String) (deals : List Deal),
      filtered_deals search_query category_filter deals =
        deals.filter (fun d => decide (keepSpec search_query category_filter d)) := by
  intro q cf ds
  unfold filtered_deals
  exact List.filter_congr (fun d _ => keepDeal_eq_spec q cf d)

/-! ### C8: fingerprint determinism and collisions -/

/-- The chain-list normalisation both fingerprints perform:
`sorted(chains or [])`. -/
def normChains (c : Option (List String)) : List String := sortStrings (c.getD [])

/-- One logical request to any of the four cached read operations, with the
parameters that enter its fingerprint. -/
inductive ApiRequest where
  | deals (zip_code : String) (radius : ℕ) (store_chains : Option (List String))
  | search (query : String) (zip_code : String) (radius : ℕ)
  | stores (zip_code : String) (radius : ℕ) (chains : Option (List String))
  | storeDetails (store_id : String)
  deriving DecidableEq

/-- The fingerprint each operation computes for its request. -/
def ApiRequest.cacheKey : ApiRequest → String
  | .deals z r c => cacheKeyDeals z r c
  | .search q z r => cacheKeySearch q z r
  | .stores z r c => cacheKeyStores z r c
  | .storeDetails i => cacheKeyStoreDetails i

/-- Requests up to the normalisation the fingerprint applies anyway:
chain lists defaulted and sorted. -/
def ApiRequest.canon : ApiRequest → ApiRequest
  | .deals z r c => .deals z r (some (normChains c))
  | .stores z r c => .stores z r (some (normChains c))
  | x => x

/-- The string contains no underscore (the fingerprint delimiter). -/
def noUnderscore (s : String) : Prop := '_' ∉ s.data

/-- Well-formed request parameters: free-form string parameters contain no
underscore, and chain names are additionally non-empty. -/
def ApiRequest.wf : ApiRequest → Prop
  | .deals z _ c => noUnderscore z ∧ ∀ s ∈ c.getD [], noUnderscore s ∧ s ≠ ""
  | .search q z _ => noUnderscore q ∧ noUnderscore z
  | .stores z _ c => noUnderscore z ∧ ∀ s ∈ c.getD [], noUnderscore s ∧ s ≠ ""
  | .storeDetails i => noUnderscore i

/-- The underscore-separated segments a chain list contributes to the key:
an empty list contributes the single empty segment (the empty join). -/
def chainSegs (cs : List String) : List String :=
  match cs with
  | [] => [""]
  | _ => cs

/-- The underscore-separated segments of each fingerprint. -/
def ApiRequest.segs : ApiRequest → List String
  | .deals z r c => "deals" :: z :: natRepr r :: chainSegs (normChains c)
  | .search q z r => ["search", q, z, natRepr r]
  | .stores z r c => "stores" :: z :: natRepr r :: chainSegs (normChains c)
  | .storeDetails i => ["store", i]

theorem dataAppend (a b : String) : (a ++ b).data = a.data ++ b.data := rfl

theorem joinU_chainSegs (cs : List String) : joinU (chainSegs cs) = joinU cs := by
  cases cs <;> rfl

theorem chainSegs_ne_nil (cs : List String) : chainSegs cs ≠ [] := by
  cases cs <;> simp [chainSegs]

/-- Every fingerprint is the underscore-join of its segments. -/
theorem cacheKey_eq_joinU (r : ApiRequest) : r.cacheKey = joinU r.segs := by
  cases r with
  | deals z rad c =>
    apply stringExt
    have h1 : joinU (ApiRequest.segs (.deals z rad c)) =
        "deals" ++ "_" ++ (z ++ "_" ++ (natRepr rad ++ "_" ++ joinU (chainSegs (normChains c)))) := by
      rw [ApiRequest.segs]
      cases hcs : chainSegs (normChains c) with
      | nil => exact absurd hcs (chainSegs_ne_nil _)
      | cons a as => rfl
    rw [h1, joinU_chainSegs]
    show (cacheKeyDeals z rad c).data = _
    rw [cacheKeyDeals]
    simp [dataAppend, normChains]
  | search q z rad =>
    apply stringExt
    show (cacheKeySearch q z rad).data = _
    rw [cacheKeySearch]
    show _ = ("search" ++ "_" ++ (q ++ "_" ++ (z ++ "_" ++ natRepr rad))).data
    simp [dataAppend]
  | stores z rad c =>
    apply stringExt
    have h1 : joinU (ApiRequest.segs (.stores z rad c)) =
        "stores" ++ "_" ++ (z ++ "_" ++ (natRepr rad ++ "_" ++ joinU (chainSegs (normChains c)))) := by
      rw [ApiRequest.segs]
      cases hcs : chainSegs (normChains c) with
      | nil => exact absurd hcs (chainSegs_ne_nil _)
      | cons a as => rfl
    rw [h1, joinU_chainSegs]
    show (cacheKeyStores z rad c).data = _
    rw [cacheKeyStores]
    simp [dataAppend, normChains]
  | storeDetails i =>
    apply stringExt
    show (cacheKeyStoreDetails i).data = ("store" ++ "_" ++ i).data
    rw [cacheKeyStoreDetails]
    simp [dataAppend]

/-- Splitting at the first delimiter: if neither `a` nor `b` contains the
delimiter, `a ++ sep :: x = b ++ sep :: y` forces `a = b` and `x = y`. -/
theorem split_at_sep : ∀ (a b x y : List Char), '_' ∉ a → '_' ∉ b →
    a ++ '_' :: x = b ++ '_' :: y → a = b ∧ x = y := by
  intro a
  induction a with
  | nil =>
    intro b x y _ hb h
    cases b with
    | nil =>
      simp only [List.nil_append] at h
      exact ⟨rfl, (List.cons.injEq _ _ _ _ ▸ h).2⟩
    | cons c cs =>
      simp only [List.nil_append, List.cons_append, List.cons.injEq] at h
      exact absurd (h.1 ▸ List.mem_cons_self c cs) hb
  | cons c cs ih =>
    intro b x y ha hb h
    cases b with
    | nil =>
      simp only [List.cons_append, List.nil_append, List.cons.injEq] at h
      exact absurd (h.1 ▸ List.mem_cons_self c cs) ha
    | cons d ds =>
      simp only [List.cons_append, List.cons.injEq] at h
      have hrec := ih ds x y (fun hm => ha (List.mem_cons_of_mem c hm))
        (fun hm => hb (List.mem_cons_of_mem d hm)) h.2
      exact ⟨by rw [h.1, hrec.1], hrec.2⟩

/-- String version of `split_at_sep`. -/
theorem append_sep_inj {a b x y : String} (ha : noUnderscore a) (hb : noUnderscore b)
    (h : a ++ "_" ++ x = b ++ "_" ++ y) : a = b ∧ x = y := by
  have h2 : a.data ++ '_' :: x.data = b.data ++ '_' :: y.data := by
    have h0 := congrArg String.data h
    simpa [dataAppend, List.append_assoc] using h0
  obtain ⟨h3, h4⟩ := split_at_sep a.data b.data x.data y.data ha hb h2
  exact ⟨stringExt h3, stringExt h4⟩

/-- The underscore join is injective on non-empty lists of underscore-free
segments. -/
theorem joinU_inj : ∀ (l₁ l₂ : List String), l₁ ≠ [] → l₂ ≠ [] →
    (∀ s ∈ l₁, noUnderscore s) → (∀ s ∈ l₂, noUnderscore s) →
    joinU l₁ = joinU l₂ → l₁ = l₂ := by
  intro l₁
  induction l₁ with
  | nil => intro l₂ h1 _ _ _ _; exact absurd rfl h1
  | cons a as ih =>
    intro l₂ _ h2 hu1 hu2 heq
    cases l₂ with
    | nil => exact absurd rfl h2
    | cons b bs =>
      cases as with
      | nil =>
        cases bs with
        | nil =>
          have : a = b := heq
          rw [this]
        | cons b2 bs2 =>
          exfalso
          have hmem : '_' ∈ a.data := by
            have h0 := congrArg String.data heq
            have h1 : a.data = b.data ++ '_' :: (joinU (b2 :: bs2)).data := by
              simpa [joinU, dataAppend, List.append_assoc] using h0
            rw [h1]
            exact List.mem_append.mpr (Or.inr (List.mem_cons_self _ _))
          exact hu1 a (List.mem_cons_self a []) hmem
      | cons a2 as2 =>
        cases bs with
        | nil =>
          exfalso
          have hmem : '_' ∈ b.data := by
            have h0 := congrArg String.data heq.symm
            have h1 : b.data = a.data ++ '_' :: (joinU (a2 :: as2)).data := by
              simpa [joinU, dataAppend, List.append_assoc] using h0
            rw [h1]
            exact List.mem_append.mpr (Or.inr (List.mem_cons_self _ _))
          exact hu2 b (List.mem_cons_self b []) hmem
        | cons b2 bs2 =>
          have heq2 : a ++ "_" ++ joinU (a2 :: as2) = b ++ "_" ++ joinU (b2 :: bs2) := heq
          obtain ⟨hab, hxy⟩ := append_sep_inj (hu1 a (List.mem_cons_self a _))
            (hu2 b (List.mem_cons_self b _)) heq2
          have hrec := ih (b2 :: bs2) (List.cons_ne_nil _ _) (List.cons_ne_nil _ _)
            (fun s hs => hu1 s (List.mem_cons_of_mem a hs))
            (fun s hs => hu2 s (List.mem_cons_of_mem b hs)) hxy
          rw [hab, hrec]

/-- Value of a digit list, least significant digit first. -/
def fromDigits : List ℕ → ℕ
  | [] => 0
  | d :: ds => d + 10 * fromDigits ds

theorem fromDigits_digitsRev : ∀ (fuel n : ℕ), n ≤ fuel →
    fromDigits (digitsRev fuel n) = n := by
  intro fuel
  induction fuel with
  | zero =>
    intro n h
    have h0 : n = 0 := Nat.le_zero.mp h
    subst h0
    rfl
  | succ f ih =>
    intro n h
    by_cases hn : n = 0
    · subst hn; rfl
    · simp only [digitsRev, hn, if_false, fromDigits]
      rw [ih (n / 10) (by omega)]
      omega

theorem fromDigits_natDigits (n : ℕ) : fromDigits (natDigits n) = n :=
  fromDigits_digitsRev n n le_rfl

theorem digitsRev_lt_ten : ∀ (fuel n d : ℕ), d ∈ digitsRev fuel n → d < 10 := by
  intro fuel
  induction fuel with
  | zero => intro n d h; simp [digitsRev] at h
  | succ f ih =>
    intro n d h
    by_cases hn : n = 0
    · simp [digitsRev, hn] at h
    · simp only [digitsRev, hn, if_false, List.mem_cons] at h
      rcases h with h | h
      · omega
      · exact ih _ _ h

theorem digitChar_lt_inj : ∀ d₁, d₁ < 10 → ∀ d₂, d₂ < 10 →
    digitChar d₁ = digitChar d₂ → d₁ = d₂ := by decide

theorem digitChar_ne_und : ∀ d, d < 10 → digitChar d ≠ '_' := by decide

theorem natRepr_noUnderscore (n : ℕ) : noUnderscore (natRepr n) := by
  unfold noUnderscore natRepr
  by_cases h : n = 0
  · rw [if_pos h]; decide
  · rw [if_neg h]
    show '_' ∉ ((natDigits n).map digitChar).reverse
    intro hm
    rw [List.mem_reverse] at hm
    obtain ⟨d, hd, he⟩ := List.mem_map.mp hm
    exact digitChar_ne_und d (digitsRev_lt_ten n n d hd) he

theorem mapDigitChar_inj : ∀ (l₁ l₂ : List ℕ), (∀ x ∈ l₁, x < 10) →
    (∀ x ∈ l₂, x < 10) → l₁.map digitChar = l₂.map digitChar → l₁ = l₂ := by
  intro l₁
  induction l₁ with
  | nil =>
    intro l₂ _ _ h
    cases l₂ with
    | nil => rfl
    | cons b bs => simp at h
  | cons a as ih =>
    intro l₂ h1 h2 h
    cases l₂ with
    | nil => simp at h
    | cons b bs =>
      simp only [List.map_cons, List.cons.injEq] at h
      have hab : a = b := digitChar_lt_inj a (h1 a (List.mem_cons_self a as)) b
        (h2 b (List.mem_cons_self b bs)) h.1
      rw [hab, ih bs (fun x hx => h1 x (List.mem_cons_of_mem a hx))
        (fun x hx => h2 x (List.mem_cons_of_mem b hx)) h.2]

theorem natRepr_inj {m n : ℕ} (h : natRepr m = natRepr n) : m = n := by
  unfold natRepr at h
  by_cases hm : m = 0 <;> by_cases hn : n = 0
  · rw [hm, hn]
  · exfalso
    rw [if_pos hm, if_neg hn] at h
    have hd := congrArg String.data h
    have h1 : (natDigits n).map digitChar = ['0'] := by
      have h2 : ((natDigits n).map digitChar).reverse = ['0'] := hd.symm
      have h3 := congrArg List.reverse h2
      simpa using h3
    cases hnd : natDigits n with
    | nil => rw [hnd] at h1; simp at h1
    | cons d ds =>
      rw [hnd] at h1
      simp only [List.map_cons, List.cons.injEq, List.map_eq_nil_iff] at h1
      have hd10 : d < 10 := digitsRev_lt_ten n n d
        (by show d ∈ natDigits n; rw [hnd]; exact List.mem_cons_self d ds)
      have hd0 : d = 0 := digitChar_lt_inj d hd10 0 (by omega) h1.1
      have : n = 0 := by
        have h4 := fromDigits_natDigits n
        rw [hnd, hd0, h1.2] at h4
        simpa [fromDigits] using h4.symm
      exact hn this
  · exfalso
    rw [if_neg hm, if_pos hn] at h
    have hd := congrArg String.data h.symm
    have h1 : (natDigits m).map digitChar = ['0'] := by
      have h2 : ((natDigits m).map digitChar).reverse = ['0'] := hd.symm
      have h3 := congrArg List.reverse h2
      simpa using h3
    cases hnd : natDigits m with
    | nil => rw [hnd] at h1; simp at h1
    | cons d ds =>
      rw [hnd] at h1
      simp only [List.map_cons, List.cons.injEq, List.map_eq_nil_iff] at h1
      have hd10 : d < 10 := digitsRev_lt_ten m m d
        (by show d ∈ natDigits m; rw [hnd]; exact List.mem_cons_self d ds)
      have hd0 : d = 0 := digitChar_lt_inj d hd10 0 (by omega) h1.1
      have : m = 0 := by
        have h4 := fromDigits_natDigits m
        rw [hnd, hd0, h1.2] at h4
        simpa [fromDigits] using h4.symm
      exact hm this
  · rw [if_neg hm, if_neg hn] at h
    have hd := congrArg String.data h
    have h1 : (natDigits m).map digitChar = (natDigits n).map digitChar :=
      List.reverse_injective hd
    have h2 := mapDigitChar_inj _ _ (fun x hx => digitsRev_lt_ten m m x hx)
      (fun x hx => digitsRev_lt_ten n n x hx) h1
    calc m = fromDigits (natDigits m) := (fromDigits_natDigits m).symm
    _ = fromDigits (natDigits n) := congrArg fromDigits h2
    _ = n := fromDigits_natDigits n

instance noUnderscoreDecidable (s : String) : Decidable (noUnderscore s) := by
  unfold noUnderscore
  infer_instance

instance wfDecidable (r : ApiRequest) : Decidable r.wf := by
  cases r <;> (unfold ApiRequest.wf; infer_instance)

theorem mem_sortStrings {s : String} {l : List String} :
    s ∈ sortStrings l ↔ s ∈ l :=
  (List.perm_insertionSort _ l).mem_iff

theorem segs_ne_nil (r : ApiRequest) : r.segs ≠ [] := by
  cases r <;> simp [ApiRequest.segs]

theorem segs_noUnderscore {r : ApiRequest} (h : r.wf) : ∀ s ∈ r.segs, noUnderscore s := by
  cases r with
  | deals z rad c =>
    intro s hs
    simp only [ApiRequest.segs, List.mem_cons] at hs
    rcases hs with h1 | h1 | h1 | h1
    · subst h1; decide
    · subst h1; exact h.1
    · subst h1; exact natRepr_noUnderscore rad
    · cases hno : normChains c with
      | nil =>
        rw [hno] at h1
        simp only [chainSegs, List.mem_cons, List.not_mem_nil, or_false] at h1
        subst h1; decide
      | cons a as =>
        rw [hno] at h1
        have hmem : s ∈ normChains c := by
          rw [hno]
          simpa [chainSegs] using h1
        exact (h.2 s (mem_sortStrings.mp hmem)).1
  | search q z rad =>
    intro s hs
    simp only [ApiRequest.segs, List.mem_cons, List.not_mem_nil, or_false] at hs
    rcases hs with h1 | h1 | h1 | h1
    · subst h1; decide
    · subst h1; exact h.1
    · subst h1; exact h.2
    · subst h1; exact natRepr_noUnderscore rad
  | stores z rad c =>
    intro s hs
    simp only [ApiRequest.segs, List.mem_cons] at hs
    rcases hs with h1 | h1 | h1 | h1
    · subst h1; decide
    · subst h1; exact h.1
    · subst h1; exact natRepr_noUnderscore rad
    · cases hno : normChains c with
      | nil =>
        rw [hno] at h1
        simp only [chainSegs, List.mem_cons, List.not_mem_nil, or_false] at h1
        subst h1; decide
      | cons a as =>
        rw [hno] at h1
        have hmem : s ∈ normChains c := by
          rw [hno]
          simpa [chainSegs] using h1
        exact (h.2 s (mem_sortStrings.mp hmem)).1
  | storeDetails i =>
    intro s hs
    simp only [ApiRequest.segs, List.mem_cons, List.not_mem_nil, or_false] at hs
    rcases hs with h1 | h1
    · subst h1; decide
    · subst h1; exact h

theorem chainSegs_inj {cs₁ cs₂ : List String} (h₁ : ("") ∉ cs₁) (h₂ : ("") ∉ cs₂)
    (h : chainSegs cs₁ = chainSegs cs₂) : cs₁ = cs₂ := by
  cases cs₁ with
  | nil =>
    cases cs₂ with
    | nil => rfl
    | cons b bs =>
      exfalso
      have h3 : ("" : String) = b ∧ ([] : List String) = bs := by
        simpa [chainSegs] using h
      exact h₂ (h3.1 ▸ List.mem_cons_self b bs)
  | cons a as =>
    cases cs₂ with
    | nil =>
      exfalso
      have h3 : a = ("" : String) ∧ as = ([] : List String) := by
        simpa [chainSegs] using h
      exact h₁ (h3.1 ▸ List.mem_cons_self a as)
    | cons b bs => simpa [chainSegs] using h

/-- C8 fails on the code: the chain segments are joined with the same
underscore that delimits the key parts, so the distinct (and
result-affecting, as the comma-joined `chains` request parameter shows)
chain lists `["A", "B"]` and `["A_B"]` collide to one deals fingerprint —
and they stay distinct even after the sort/default normalisation. -/
theorem claim_C8_counterexample :
    cacheKeyDeals ("78704") 5 (some ["A", "B"]) =
      cacheKeyDeals ("78704") 5 (some ["A_B"]) ∧
    (["A", "B"] : List String) ≠ ["A_B"] ∧
    joinComma ["A", "B"] ≠ joinComma ["A_B"] ∧
    sortStrings ["A", "B"] ≠ sortStrings ["A_B"] := by decide

/-- C8 (amended): fingerprint derivation is deterministic (it is a function
of the request), and it is collision-free across logically distinct
requests — same or different operations — provided the string parameters
contain no underscore (the key delimiter) and chain names are non-empty;
requests are compared up to the chain-list normalisation (`or []` default
and sorting) that the fingerprint applies and that C7 records as intended
order-independence. -/
theorem claim_C8_amended_fingerprint_injective (r₁ r₂ : ApiRequest)
    (h₁ : r₁.wf) (h₂ : r₂.wf) (heq : r₁.cacheKey = r₂.cacheKey) :
    r₁.canon = r₂.canon := by
  have hseg : r₁.segs = r₂.segs :=
    joinU_inj _ _ (segs_ne_nil r₁) (segs_ne_nil r₂) (segs_noUnderscore h₁)
      (segs_noUnderscore h₂) (by rw [← cacheKey_eq_joinU, ← cacheKey_eq_joinU, heq])
  cases r₁ with
  | deals z₁ rad₁ c₁ =>
    cases r₂ with
    | deals z₂ rad₂ c₂ =>
      simp only [ApiRequest.segs, List.cons.injEq] at hseg
      obtain ⟨-, hz, hr, hc⟩ := hseg
      have hemp₁ : ("") ∉ normChains c₁ := fun hm => (h₁.2 _ (mem_sortStrings.mp hm)).2 rfl
      have hemp₂ : ("") ∉ normChains c₂ := fun hm => (h₂.2 _ (mem_sortStrings.mp hm)).2 rfl
      simp [ApiRequest.canon, hz, natRepr_inj hr, chainSegs_inj hemp₁ hemp₂ hc]
    | search q z rad =>
      have hh : ("deals" : String) = "search" := congrArg (fun l => l.headD ("")) hseg
      exact absurd hh (by decide)
    | stores z rad c =>
      have hh : ("deals" : String) = "stores" := congrArg (fun l => l.headD ("")) hseg
      exact absurd hh (by decide)
    | storeDetails i =>
      have hh : ("deals" : String) = "store" := congrArg (fun l => l.headD ("")) hseg
      exact absurd hh (by decide)
  | search q₁ z₁ rad₁ =>
    cases r₂ with
    | deals z rad c =>
      have hh : ("search" : String) = "deals" := congrArg (fun l => l.headD ("")) hseg
      exact absurd hh (by decide)
    | search q₂ z₂ rad₂ =>
      simp only [ApiRequest.segs, List.cons.injEq] at hseg
      obtain ⟨-, hq, hz, hr, -⟩ := hseg
      simp [ApiRequest.canon, hq, hz, natRepr_inj hr]
    | stores z rad c =>
      have hh : ("search" : String) = "stores" := congrArg (fun l => l.headD ("")) hseg
      exact absurd hh (by decide)
    | storeDetails i =>
      have hh : ("search" : String) = "store" := congrArg (fun l => l.headD ("")) hseg
      exact absurd hh (by decide)
  | stores z₁ rad₁ c₁ =>
    cases r₂ with
    | deals z rad c =>
      have hh : ("stores" : String) = "deals" := congrArg (fun l => l.headD ("")) hseg
      exact absurd hh (by decide)
    | search q z rad =>
      have hh : ("stores" : String) = "search" := congrArg (fun l => l.headD ("")) hseg
      exact absurd hh (by decide)
    | stores z₂ rad₂ c₂ =>
      simp only [ApiRequest.segs, List.cons.injEq] at hseg
      obtain ⟨-, hz, hr, hc⟩ := hseg
      have hemp₁ : ("") ∉ normChains c₁ := fun hm => (h₁.2 _ (mem_sortStrings.mp hm)).2 rfl
      have hemp₂ : ("") ∉ normChains c₂ := fun hm => (h₂.2 _ (mem_sortStrings.mp hm)).2 rfl
      simp [ApiRequest.canon, hz, natRepr_inj hr, chainSegs_inj hemp₁ hemp₂ hc]
    | storeDetails i =>
      have hh : ("stores" : String) = "store" := congrArg (fun l => l.headD ("")) hseg
      exact absurd hh (by decide)
  | storeDetails i₁ =>
    cases r₂ with
    | deals z rad c =>
      have hh : ("store" : String) = "deals" := congrArg (fun l => l.headD ("")) hseg
      exact absurd hh (by decide)
    | search q z rad =>
      have hh : ("store" : String) = "search" := congrArg (fun l => l.headD ("")) hseg
      exact absurd hh (by decide)
    | stores z rad c =>
      have hh : ("store" : String) = "stores" := congrArg (fun l => l.headD ("")) hseg
      exact absurd hh (by decide)
    | storeDetails i₂ =>
      simp only [ApiRequest.segs, List.cons.injEq] at hseg
      obtain ⟨-, hi, -⟩ := hseg
      simp [ApiRequest.canon, hi]

/-- Witness for the amended C8: the two permuted, well-formed chain lists of
the spec's example share one fingerprint, and the theorem identifies the
requests up to normalisation. -/
theorem claim_C8_witness :
    ApiRequest.canon (.deals ("78704") 5 (some ["Walmart", "HEB"])) =
      ApiRequest.canon (.deals ("78704") 5 (some ["HEB", "Walmart"])) :=
  claim_C8_amended_fingerprint_injective
    (.deals ("78704") 5 (some ["Walmart", "HEB"]))
    (.deals ("78704") 5 (some ["HEB", "Walmart"]))
    (by decide) (by decide) (by decide)

end StorePriceAlert
